import Mathlib

/-!
# Ellipse drawing window: shape list and input-mode controller

A shallow embedding of `src/drawing_window.h` / `src/drawing_window.cpp`.

Modelling conventions

* A finite `float` / `double` value is the rational number it denotes.  Every arithmetic
  operation of the code and every conversion to `float` rounds its exact result to the
  nearest binary32 (`round32`) or binary64 (`round64`) number, ties to even, subnormal
  numbers included; an operation is carried out in the type C++ gives it (`float` unless
  an operand is `double`), without fused multiply-add.  Infinities and NaN have no
  representation: an overflow of the binary32 range is outside the model, and the one
  place where the code can divide by zero (`ColorEllipse::HitTest` with a zero
  denominator) is given its IEEE outcome explicitly.  `DPIScale::s_scale` is `dpi / 96`
  for a positive `dpi`, hence not zero.
* `cos` and `sin` come from the C library and are not part of the repository; they are
  fields of `Platform` (from binary64 to binary64), together with `DPIScale::s_scale`.
* `std::list<std::shared_ptr<Shape>>` is a `List`; list nodes are never erased or moved by
  the code, so the position of a node is its identity and the aliasing pointer `pShape`
  is `Option Nat` (`none` is `nullptr`).  A write through `SelectedShape()` is an
  in-place update of the list at that position.
* Rendering (`Draw`, `OnPaint`, `InvalidateRect`, `SetTransform`), mouse capture and the
  message pump are not modelled.
-/

namespace EllipseDrawing

/-! ## Binary floating point -/

/-- The number of binary digits of `n` (`fuel` bounds the number of halvings). -/
def bitLength : Nat → Nat → Nat
  | 0, _ => 0
  | fuel + 1, n => if n = 0 then 0 else bitLength fuel (n / 2) + 1

/-- The exponent of the leading binary digit of `q ≠ 0`, that is `⌊log₂ |q|⌋`: the
difference of the digit counts of numerator and denominator, or one less. -/
def floorLog2 (q : ℚ) : Int :=
  let e : Int := (bitLength q.num.natAbs q.num.natAbs : Int) - (bitLength q.den q.den : Int)
  if (2 : ℚ) ^ e ≤ |q| then e else e - 1

/-- The integer nearest to `q`; of two nearest integers the even one. -/
def roundNearestEven (q : ℚ) : Int :=
  let f : Int := q.num / (q.den : Int)
  let r : ℚ := q - f
  if r < 1 / 2 then f else if 1 / 2 < r then f + 1 else if f % 2 = 0 then f else f + 1

/-- Rounding to a binary format with `p` significant bits whose smallest subnormal number
is `2 ^ tmin`: the nearest multiple of `2 ^ t`, where `t` is the exponent of the last of
the `p` bits of `q`, not below `tmin`. -/
def roundTo (p : Nat) (tmin : Int) (q : ℚ) : ℚ :=
  if q = 0 then 0
  else
    let t : Int := max (floorLog2 q - ((p - 1 : Nat) : Int)) tmin
    (roundNearestEven (q / (2 : ℚ) ^ t) : ℚ) * (2 : ℚ) ^ t

/-- Rounding to `float` (IEEE binary32). -/
def round32 (q : ℚ) : ℚ := roundTo 24 (-149) q

/-- Rounding to `double` (IEEE binary64). -/
def round64 (q : ℚ) : ℚ := roundTo 53 (-1074) q

/-! ## Data model -/

/-- The six `D2D1::ColorF::Enum` values used by `ShapeList::colors`. -/
inductive ColorF
  | Yellow | Salmon | LimeGreen | Aqua | Beige | Violet
  deriving DecidableEq, Repr

/-- Direct2D point, `D2D1_POINT_2F`. -/
structure D2D1_POINT_2F where
  x : ℚ
  y : ℚ
  deriving DecidableEq

/-- Direct2D ellipse, `D2D1_ELLIPSE`. -/
structure D2D1_ELLIPSE where
  point : D2D1_POINT_2F
  radiusX : ℚ
  radiusY : ℚ
  deriving DecidableEq

/-- Class `ColorEllipse` (drawing_window.h:39-56). -/
structure ColorEllipse where
  ellipse : D2D1_ELLIPSE
  color : ColorF
  rotation : ℚ
  deriving DecidableEq

/-- Constructor `ColorEllipse::ColorEllipse(cursorPosition, color)` (drawing_window.cpp:412-418);
`rotation` takes its default member initialiser `0` (drawing_window.h:44). -/
def ColorEllipse.new (cursorPosition : D2D1_POINT_2F) (color : ColorF) : ColorEllipse :=
  { ellipse := { point := cursorPosition, radiusX := 1, radiusY := 1 }
    color := color
    rotation := 0 }

/-- What the code takes from outside the repository: the C library `cos` and `sin`
(called on radians) and the static `DPIScale::s_scale`. -/
structure Platform where
  cos : ℚ → ℚ
  sin : ℚ → ℚ
  s_scale : ℚ

/-- Constant `IShape::pi` (drawing_window.h:27), a `double`. -/
def pi : ℚ := round64 3.14159265358979323846

/-- The argument `-rotation * pi / 180` of `cos` and `sin` in `HitTest`: the `float`
`-rotation` is promoted to `double`, the product and the quotient are binary64. -/
def radians (rotation : ℚ) : ℚ := round64 (round64 (-rotation * pi) / 180)

/-- The `float` variables `xR`, `yR` of `HitTest` (drawing_window.cpp:434-437): the query
point relative to the centre, turned by `-rotation` degrees.  The differences are
binary32; the products and their sum are binary64 (the `float` operands are promoted
because `cos` and `sin` return `double`) and the result is converted to `float`. -/
def ColorEllipse.localPoint (P : Platform) (e : ColorEllipse) (dipX dipY : ℚ) : ℚ × ℚ :=
  let x := round32 (dipX - e.ellipse.point.x)
  let y := round32 (dipY - e.ellipse.point.y)
  let t := radians e.rotation
  (round32 (round64 (round64 (x * P.cos t) - round64 (y * P.sin t))),
   round32 (round64 (round64 (x * P.sin t) + round64 (y * P.cos t))))

/-- Method `ColorEllipse::HitTest` (drawing_window.cpp:430-440); line 439 is evaluated in
binary32.  With a zero denominator the quotient is an infinity or NaN and the
comparison `<= 1.0f` is false. -/
def ColorEllipse.HitTest (P : Platform) (e : ColorEllipse) (dipX dipY : ℚ) : Bool :=
  let a := e.ellipse.radiusX
  let b := e.ellipse.radiusY
  let xR := (e.localPoint P dipX dipY).1
  let yR := (e.localPoint P dipX dipY).2
  if round32 (a * a) = 0 ∨ round32 (b * b) = 0 then false
  else decide (round32 (round32 (round32 (xR * xR) / round32 (a * a)) +
    round32 (round32 (yR * yR) / round32 (b * b))) ≤ 1)

/-- The palette `ShapeList::colors` (drawing_window.h:68-72). -/
def colors : List ColorF :=
  [ColorF.Yellow, ColorF.Salmon, ColorF.LimeGreen, ColorF.Aqua, ColorF.Beige, ColorF.Violet]

/-- Class template `ShapeList<ColorEllipse>` (drawing_window.h:62-82). -/
structure ShapeList where
  shapes : List ColorEllipse
  pShape : Option Nat
  colorIndex : Nat
  deriving DecidableEq

/-- Constructor `ShapeList()`: empty list, null `pShape`, `colorIndex` 0. -/
def ShapeList.new : ShapeList :=
  { shapes := [], pShape := none, colorIndex := 0 }

/-- Result codes of `InsertShape`. -/
inductive HRESULT
  | S_OK | E_OUTOFMEMORY
  deriving DecidableEq, Repr

/-- Accessor `ShapeList::SelectedShape` (drawing_window.cpp:53-57): the selection pointer. -/
def ShapeList.SelectedShape (s : ShapeList) : Option Nat := s.pShape

/-- The object `*SelectedShape()`, when the pointer is not null. -/
def ShapeList.selectedObject (s : ShapeList) : Option ColorEllipse :=
  match s.pShape with
  | none => none
  | some i => s.shapes[i]?

/-- A write through `SelectedShape()->...`: in-place update of the selected node. -/
def ShapeList.updateSelected (f : ColorEllipse → ColorEllipse) (s : ShapeList) : ShapeList :=
  match s.pShape with
  | none => s
  | some i =>
    match s.shapes[i]? with
    | none => s
    | some e => { s with shapes := s.shapes.set i (f e) }

/-- The guarded write `if (SelectedShape()) SelectedShape()->Shape() = shape`
(drawing_window.cpp:345-348). -/
def ShapeList.setShape (s : ShapeList) (shape : D2D1_ELLIPSE) : ShapeList :=
  s.updateSelected (fun e => { e with ellipse := shape })

/-- The guarded write of `SelectedShape()->Shape().point` (drawing_window.cpp:353-357). -/
def ShapeList.setPoint (s : ShapeList) (point : D2D1_POINT_2F) : ShapeList :=
  s.updateSelected (fun e => { e with ellipse := { e.ellipse with point := point } })

/-- The guarded update `SelectedShape()->Rotation() += r` (drawing_window.cpp:379-382), a
binary32 addition. -/
def ShapeList.addRotation (s : ShapeList) (r : ℚ) : ShapeList :=
  s.updateSelected (fun e => { e with rotation := round32 (e.rotation + r) })

/-- Method `ShapeList::InsertShape` (drawing_window.cpp:59-75).  `alloc` says whether the
allocations in the `try` block succeed; on `std::bad_alloc` nothing has been changed.
`colorIndex` is `unsigned long long`, hence the wrap at `2^64`; reading `colors` out of
range is undefined in C++ and cannot happen while `colorIndex < 6`. -/
def ShapeList.InsertShape (alloc : Bool) (s : ShapeList) (dipX dipY : ℚ) : HRESULT × ShapeList :=
  if alloc then
    let shapes := s.shapes ++ [ColorEllipse.new ⟨dipX, dipY⟩ (colors.getD s.colorIndex ColorF.Yellow)]
    (HRESULT.S_OK,
      { shapes := shapes
        colorIndex := ((s.colorIndex + 1) % 2 ^ 64) % colors.length
        pShape := some (shapes.length - 1) })
  else (HRESULT.E_OUTOFMEMORY, s)

/-- The reverse-iterator loop of `SelectShape`: with `n` nodes still to visit, look at node
`n - 1` and go on towards the front of the list. -/
def ShapeList.scan (P : Platform) (shapes : List ColorEllipse) (dipX dipY : ℚ) : Nat → Option Nat
  | 0 => none
  | n + 1 =>
    match shapes[n]? with
    | some e => if e.HitTest P dipX dipY then some n else ShapeList.scan P shapes dipX dipY n
    | none => ShapeList.scan P shapes dipX dipY n

/-- Method `ShapeList::SelectShape` (drawing_window.cpp:77-90). -/
def ShapeList.SelectShape (P : Platform) (s : ShapeList) (dipX dipY : ℚ) : Bool × ShapeList :=
  match ShapeList.scan P s.shapes dipX dipY s.shapes.length with
  | some i => (true, { s with pShape := some i })
  | none => (false, s)

/-- Method `ShapeList::ClearSelection` (drawing_window.h:80). -/
def ShapeList.ClearSelection (s : ShapeList) : ShapeList := { s with pShape := none }

/-- Enumeration `Mode` (drawing_window.h:88-93). -/
inductive Mode
  | DrawMode | SelectionMode | DragMode
  deriving DecidableEq, Repr

/-- Cursor resources loaded by `SetMode`. -/
inductive Cursor
  | IDC_ARROW | IDC_CROSS | IDC_HAND | IDC_SIZEALL
  deriving DecidableEq, Repr

/-- The fields of `DrawingWindow` (drawing_window.h:115-124) that the input handlers use. -/
structure DrawingWindow where
  ptMouse : D2D1_POINT_2F
  drawStartPos : D2D1_POINT_2F
  dragObjRelPos : D2D1_POINT_2F
  mode : Mode
  hCursor : Option Cursor
  ellipses : ShapeList
  deriving DecidableEq

/-- Constructor `DrawingWindow()` (drawing_window.h:145-147). -/
def DrawingWindow.new : DrawingWindow :=
  { ptMouse := ⟨0, 0⟩, drawStartPos := ⟨0, 0⟩, dragObjRelPos := ⟨0, 0⟩
    mode := Mode.DrawMode, hCursor := none, ellipses := ShapeList.new }

/-- Helper `DPIScale::PixelsToDIPs` (drawing_window.h:174-178): the `int` (32 bits, far inside
the binary32 range) is converted to `float` and divided in binary32. -/
def PixelsToDIPs (P : Platform) (x y : Int) : D2D1_POINT_2F :=
  ⟨round32 (round32 (x : ℚ) / P.s_scale), round32 (round32 (y : ℚ) / P.s_scale)⟩

/-- Method `DrawingWindow::SetMode` (drawing_window.cpp:187-208). -/
def DrawingWindow.SetMode (w : DrawingWindow) (mode : Mode) : DrawingWindow :=
  let cursor :=
    match mode with
    | Mode.DrawMode => Cursor.IDC_CROSS
    | Mode.SelectionMode => Cursor.IDC_HAND
    | Mode.DragMode => Cursor.IDC_SIZEALL
  { w with mode := mode, hCursor := some cursor }

/-- Flag `MK_LBUTTON` of `WM_MOUSEMOVE`. -/
def MK_LBUTTON : Nat := 1

/-- Handler `DrawingWindow::OnLeftButtonDown` (drawing_window.cpp:299-330).  `dragDetect` is the
answer of `DragDetect`, `alloc` whether `InsertShape` can allocate; the parameter `flags`
is not read by the code.  After a successful `SelectShape` the selection is not null, so
the `none` branch of the dereference is never taken. -/
def DrawingWindow.OnLeftButtonDown (P : Platform) (w : DrawingWindow) (pixelX pixelY : Int)
    (dragDetect alloc : Bool) : DrawingWindow :=
  let w1 := { w with ptMouse := PixelsToDIPs P pixelX pixelY }
  if w1.mode = Mode.DrawMode then
    if dragDetect then
      let w2 := { w1 with drawStartPos := w1.ptMouse }
      { w2 with ellipses := (w2.ellipses.InsertShape alloc w2.drawStartPos.x w2.drawStartPos.y).2 }
    else w1
  else
    let r := w1.ellipses.ClearSelection.SelectShape P w1.ptMouse.x w1.ptMouse.y
    let w2 := { w1 with ellipses := r.2 }
    if r.1 then
      match w2.ellipses.selectedObject with
      | some e =>
        let rel : D2D1_POINT_2F :=
          ⟨round32 (e.ellipse.point.x - w2.ptMouse.x), round32 (e.ellipse.point.y - w2.ptMouse.y)⟩
        ({ w2 with dragObjRelPos := rel }).SetMode Mode.DragMode
      | none => w2.SetMode Mode.DragMode
    else w2

/-- Handler `DrawingWindow::OnMouseMove` (drawing_window.cpp:332-361). -/
def DrawingWindow.OnMouseMove (P : Platform) (w : DrawingWindow) (pixelX pixelY : Int)
    (flags : Nat) : DrawingWindow :=
  let dips := PixelsToDIPs P pixelX pixelY
  if flags &&& MK_LBUTTON ≠ 0 then
    if w.mode = Mode.DrawMode then
      let width := round32 (round32 (dips.x - w.drawStartPos.x) / 2)
      let height := round32 (round32 (dips.y - w.drawStartPos.y) / 2)
      let x1 := round32 (w.drawStartPos.x + width)
      let y1 := round32 (w.drawStartPos.y + height)
      { w with ellipses := w.ellipses.setShape { point := ⟨x1, y1⟩, radiusX := width, radiusY := height } }
    else if w.mode = Mode.DragMode then
      let x := round32 (dips.x + w.dragObjRelPos.x)
      let y := round32 (dips.y + w.dragObjRelPos.y)
      { w with ellipses := w.ellipses.setPoint ⟨x, y⟩ }
    else w
  else w

/-- Handler `DrawingWindow::OnLeftButtonUp` (drawing_window.cpp:363-375). -/
def DrawingWindow.OnLeftButtonUp (w : DrawingWindow) : DrawingWindow :=
  if w.mode = Mode.DrawMode then
    if w.ellipses.SelectedShape.isSome then { w with ellipses := w.ellipses.ClearSelection } else w
  else if w.mode = Mode.DragMode then w.SetMode Mode.SelectionMode
  else w

/-- The increment `static_cast<float>(delta) / 120.0f * 4` of `OnMouseWheel`, in binary32. -/
def wheelDegrees (delta : Int) : ℚ := round32 (round32 (round32 (delta : ℚ) / 120) * 4)

/-- Handler `DrawingWindow::OnMouseWheel` (drawing_window.cpp:377-385). -/
def DrawingWindow.OnMouseWheel (w : DrawingWindow) (delta : Int) : DrawingWindow :=
  { w with ellipses := w.ellipses.addRotation (wheelDegrees delta) }

/-- The value `LOWORD(wParam)` of a `WM_KEYDOWN` / `WM_COMMAND` message.  The three
identifiers are defined in `resource.h`, which is not among the sources; as labels of one
`switch` they are pairwise different, and every other value is `other`. -/
inductive CommandId
  | ID_DRAW_MODE | ID_SELECT_MODE | ID_TOGGLE_MODE
  | other (n : Nat)
  deriving DecidableEq, Repr

/-- The `WM_KEYDOWN` / `WM_COMMAND` case of `DrawingWindow::HandleMessage`
(drawing_window.cpp:165-180). -/
def DrawingWindow.OnCommand (w : DrawingWindow) (id : CommandId) : DrawingWindow :=
  match id with
  | CommandId.ID_DRAW_MODE => w.SetMode Mode.DragMode
  | CommandId.ID_SELECT_MODE => w.SetMode Mode.SelectionMode
  | CommandId.ID_TOGGLE_MODE =>
    if w.mode = Mode.DrawMode then w.SetMode Mode.SelectionMode else w.SetMode Mode.DrawMode
  | CommandId.other _ => w

/-- The input messages dispatched by `DrawingWindow::HandleMessage`
(drawing_window.cpp:139-180), with the answers of the platform calls made while
handling them: `DragDetect`, the allocation in `InsertShape`, and
`GetSystemMetrics(SM_MOUSEWHEELPRESENT) != 0`.  `WM_KEYDOWN` falls through to the
`WM_COMMAND` switch on `LOWORD(wParam)`. -/
inductive Msg
  | WM_LBUTTONDOWN (pixelX pixelY : Int) (dragDetect alloc : Bool)
  | WM_LBUTTONUP
  | WM_MOUSEMOVE (pixelX pixelY : Int) (flags : Nat)
  | WM_MOUSEWHEEL (delta : Int) (wheelPresent : Bool)
  | WM_KEYDOWN (id : CommandId)
  | WM_COMMAND (id : CommandId)

/-- Method `DrawingWindow::HandleMessage` (drawing_window.cpp:105-185), input cases. -/
def DrawingWindow.HandleMessage (P : Platform) (w : DrawingWindow) : Msg → DrawingWindow
  | Msg.WM_LBUTTONDOWN x y d a => w.OnLeftButtonDown P x y d a
  | Msg.WM_LBUTTONUP => w.OnLeftButtonUp
  | Msg.WM_MOUSEMOVE x y f => w.OnMouseMove P x y f
  | Msg.WM_MOUSEWHEEL delta present => if present then w.OnMouseWheel delta else w
  | Msg.WM_KEYDOWN id => w.OnCommand id
  | Msg.WM_COMMAND id => w.OnCommand id

/-- The window after a sequence of messages. -/
def DrawingWindow.run (P : Platform) (w : DrawingWindow) (ms : List Msg) : DrawingWindow :=
  ms.foldl (DrawingWindow.HandleMessage P) w

/-! ## Shape-list operations as used by the handlers -/

/-- The operations the window performs on its `ShapeList`: the three methods and the three
writes through `SelectedShape()`. -/
inductive ShapeOp
  | InsertShape (alloc : Bool) (dipX dipY : ℚ)
  | SelectShape (dipX dipY : ℚ)
  | ClearSelection
  | setShape (shape : D2D1_ELLIPSE)
  | setPoint (point : D2D1_POINT_2F)
  | addRotation (r : ℚ)

/-- One operation on a shape list. -/
def ShapeList.applyOp (P : Platform) (s : ShapeList) : ShapeOp → ShapeList
  | ShapeOp.InsertShape alloc x y => (s.InsertShape alloc x y).2
  | ShapeOp.SelectShape x y => (s.SelectShape P x y).2
  | ShapeOp.ClearSelection => s.ClearSelection
  | ShapeOp.setShape shape => s.setShape shape
  | ShapeOp.setPoint point => s.setPoint point
  | ShapeOp.addRotation r => s.addRotation r

/-- A sequence of operations on a shape list. -/
def ShapeList.runOps (P : Platform) (s : ShapeList) (ops : List ShapeOp) : ShapeList :=
  ops.foldl (ShapeList.applyOp P) s

/-- Number of `InsertShape` calls of a sequence that return `S_OK`. -/
def ShapeOp.insertions : List ShapeOp → Nat
  | [] => 0
  | ShapeOp.InsertShape true _ _ :: ops => ShapeOp.insertions ops + 1
  | _ :: ops => ShapeOp.insertions ops

/-- A platform at 96 DPI (`s_scale = 1`) whose `cos` and `sin` are the values at angle 0,
which is all that shapes with rotation 0 ask for. -/
def platform96 : Platform := { cos := fun _ => 1, sin := fun _ => 0, s_scale := 1 }

/-- A platform at 120 DPI (`s_scale = 1.25`), `cos` and `sin` as in `platform96`. -/
def platform120 : Platform := { cos := fun _ => 1, sin := fun _ => 0, s_scale := 5 / 4 }

/-- The unrotated ellipse with centre `(0, 0)`, `radiusX = 10` and `radiusY = 5`. -/
def axisEllipse : ColorEllipse :=
  { ellipse := { point := ⟨0, 0⟩, radiusX := 10, radiusY := 5 }
    color := ColorF.Yellow, rotation := 0 }

/-- The circle with centre `(8, 8)` and radius 8. -/
def circle8 : ColorEllipse :=
  { ellipse := { point := ⟨8, 8⟩, radiusX := 8, radiusY := 8 }
    color := ColorF.Yellow, rotation := 0 }

/-- At 120 DPI: an ellipse is drawn from pixel `(0, 0)` to pixel `(20, 20)`, the button is
released and the mode toggled to Select. -/
def drawn120 : DrawingWindow :=
  DrawingWindow.new.run platform120
    [Msg.WM_LBUTTONDOWN 0 0 true true, Msg.WM_MOUSEMOVE 20 20 1, Msg.WM_LBUTTONUP,
      Msg.WM_COMMAND CommandId.ID_TOGGLE_MODE]

/-- The window `drawn120` after a press at pixel `(1, 10)`. -/
def grabbed120 : DrawingWindow := drawn120.OnLeftButtonDown platform120 1 10 false true

/-- Two overlapping unrotated ellipses, `A = axisEllipse` inserted before `B`; the point
`(1, 1)` lies inside both. -/
def overlap : ShapeList :=
  { shapes :=
      [ axisEllipse,
        { ellipse := { point := ⟨2, 0⟩, radiusX := 10, radiusY := 5 }
          color := ColorF.Salmon, rotation := 0 } ]
    pShape := none
    colorIndex := 2 }

/-- A window in Draw mode in which a press that starts a drag at pixel `(20, 10)` has just
inserted a shape. -/
def pressedAt2010 : DrawingWindow :=
  DrawingWindow.new.OnLeftButtonDown platform96 20 10 true true

/-- A gesture sequence that ends in Drag mode: draw an ellipse from `(0, 0)` to `(20, 10)`,
release, toggle to Select mode and press inside the ellipse at `(10, 5)`. -/
def grabMessages : List Msg :=
  [Msg.WM_LBUTTONDOWN 0 0 true true, Msg.WM_MOUSEMOVE 20 10 1, Msg.WM_LBUTTONUP,
    Msg.WM_COMMAND CommandId.ID_TOGGLE_MODE, Msg.WM_LBUTTONDOWN 10 5 false true]

/-- A window in Select mode holding the unrotated ellipses of `overlap`. -/
def selecting : DrawingWindow :=
  { DrawingWindow.new with mode := Mode.SelectionMode, ellipses := overlap }

/-- The window `w` with the item list replaced by `shapes` and nothing else changed. -/
def DrawingWindow.withShapes (w : DrawingWindow) (shapes : List ColorEllipse) : DrawingWindow :=
  { w with ellipses := { w.ellipses with shapes := shapes } }

/-- Round-robin colouring of a shape list: the node at position `k` carries
`colors[k mod 6]` and the colour cursor is the number of nodes modulo 6. -/
def ShapeList.RoundRobin (s : ShapeList) : Prop :=
  s.colorIndex = s.shapes.length % 6 ∧
  ∀ k e, s.shapes[k]? = some e → colors[k % 6]? = some e.color

/-- The selection pointer is null or points at a node of the list. -/
def ShapeList.SelectionValid (s : ShapeList) : Prop :=
  ∀ i, s.pShape = some i → i < s.shapes.length

/-- The list `t` keeps every node of `s` at its position: it is at least as long, the node at
each old position has the colour it had, and it is the same shape unless it is the one
selected in `s`. -/
def ShapeList.KeepsItems (s t : ShapeList) : Prop :=
  s.shapes.length ≤ t.shapes.length ∧
  ∀ i e, s.shapes[i]? = some e →
    ∃ e2, t.shapes[i]? = some e2 ∧ e2.color = e.color ∧ (s.pShape ≠ some i → e2 = e)

/-! ## Facts about the reverse scan -/

theorem scan_none_iff (P : Platform) (shapes : List ColorEllipse) (x y : ℚ) (n : Nat) :
    ShapeList.scan P shapes x y n = none ↔
      ∀ j e, j < n → shapes[j]? = some e → e.HitTest P x y = false := by
  induction n with
  | zero => simp [ShapeList.scan]
  | succ n ih =>
    unfold ShapeList.scan
    cases hn : shapes[n]? with
    | none =>
      simp only [ih]
      constructor
      · intro h j e hj he
        rcases Nat.lt_succ_iff_lt_or_eq.mp hj with hlt | heq
        · exact h j e hlt he
        · subst heq; rw [hn] at he; cases he
      · intro h j e hj he
        exact h j e (Nat.lt_succ_of_lt hj) he
    | some e0 =>
      by_cases hh : e0.HitTest P x y = true
      · simp only [hh, if_true]
        constructor
        · intro h; cases h
        · intro h
          have := h n e0 (Nat.lt_succ_self n) hn
          rw [hh] at this; cases this
      · have hf : e0.HitTest P x y = false := by simpa using hh
        simp only [hf, Bool.false_eq_true, if_false, ih]
        constructor
        · intro h j e hj he
          rcases Nat.lt_succ_iff_lt_or_eq.mp hj with hlt | heq
          · exact h j e hlt he
          · subst heq; rw [hn] at he; cases he; exact hf
        · intro h j e hj he
          exact h j e (Nat.lt_succ_of_lt hj) he

theorem scan_some (P : Platform) (shapes : List ColorEllipse) (x y : ℚ) (n i : Nat)
    (h : ShapeList.scan P shapes x y n = some i) :
    i < n ∧ (∃ e, shapes[i]? = some e ∧ e.HitTest P x y = true) ∧
      ∀ j e, i < j → j < n → shapes[j]? = some e → e.HitTest P x y = false := by
  induction n with
  | zero => simp [ShapeList.scan] at h
  | succ n ih =>
    unfold ShapeList.scan at h
    cases hn : shapes[n]? with
    | none =>
      rw [hn] at h
      obtain ⟨h1, h2, h3⟩ := ih h
      refine ⟨Nat.lt_succ_of_lt h1, h2, ?_⟩
      intro j e hij hj he
      rcases Nat.lt_succ_iff_lt_or_eq.mp hj with hlt | heq
      · exact h3 j e hij hlt he
      · subst heq; rw [hn] at he; cases he
    | some e0 =>
      rw [hn] at h
      by_cases hh : e0.HitTest P x y = true
      · simp only [hh, if_true, Option.some.injEq] at h
        subst h
        refine ⟨Nat.lt_succ_self _, ⟨e0, hn, hh⟩, ?_⟩
        intro j e hij hj _
        omega
      · have hf : e0.HitTest P x y = false := by simpa using hh
        simp only [hf, Bool.false_eq_true, if_false] at h
        obtain ⟨h1, h2, h3⟩ := ih h
        refine ⟨Nat.lt_succ_of_lt h1, h2, ?_⟩
        intro j e hij hj he
        rcases Nat.lt_succ_iff_lt_or_eq.mp hj with hlt | heq
        · exact h3 j e hij hlt he
        · subst heq; rw [hn] at he; cases he; exact hf

/-! ## Hit test -/

/-- On the unrotated ellipse with centre `(0, 0)` and radii 10 and 5, with `cos 0 = 1` and
`sin 0 = 0`: `(10, 0)` and `(0, 5)` hit, `(11, 0)` and `(0, 6)` miss. -/
theorem HitTest_unrotated_examples :
    axisEllipse.HitTest platform96 10 0 = true ∧ axisEllipse.HitTest platform96 0 5 = true ∧
    axisEllipse.HitTest platform96 11 0 = false ∧ axisEllipse.HitTest platform96 0 6 = false := by
  decide!

/-- C1 (as stated, refuted): on the empty list `InsertShape(3, 4)` succeeds, yet the shape it
appends does not have radii 0: the constructor gives both radii the value 1. -/
theorem InsertShape_radii_not_zero :
    (ShapeList.new.InsertShape true 3 4).1 = HRESULT.S_OK ∧
    ¬ ∃ e : ColorEllipse,
        (ShapeList.new.InsertShape true 3 4).2.shapes = ShapeList.new.shapes ++ [e] ∧
        e.ellipse.radiusX = 0 ∧ e.ellipse.radiusY = 0 := by
  refine ⟨rfl, ?_⟩
  rintro ⟨e, hs, hx, _⟩
  simp only [ShapeList.InsertShape, ShapeList.new, if_true, List.nil_append,
    List.cons.injEq, and_true] at hs
  rw [← hs] at hx
  simp [ColorEllipse.new] at hx

/-- C1 (amended): a successful `InsertShape(x, y)` on a list whose colour cursor is inside the
palette appends exactly one shape behind the unchanged earlier items; the new shape has
centre `(x, y)`, both radii 1, rotation 0 and colour `colors[colorIndex]`; afterwards
`colorIndex` is `(colorIndex + 1) mod 6` and the selection is the new shape. -/
theorem InsertShape_appends (alloc : Bool) (s : ShapeList) (x y : ℚ)
    (hc : s.colorIndex < 6)
    (hok : (s.InsertShape alloc x y).1 = HRESULT.S_OK) :
    ∃ e : ColorEllipse,
      (s.InsertShape alloc x y).2.shapes = s.shapes ++ [e] ∧
      e.ellipse.point = ⟨x, y⟩ ∧ e.ellipse.radiusX = 1 ∧ e.ellipse.radiusY = 1 ∧
      e.rotation = 0 ∧ colors[s.colorIndex]? = some e.color ∧
      (s.InsertShape alloc x y).2.colorIndex = (s.colorIndex + 1) % 6 ∧
      (s.InsertShape alloc x y).2.pShape = some s.shapes.length ∧
      (s.InsertShape alloc x y).2.selectedObject = some e := by
  cases alloc with
  | false => simp [ShapeList.InsertShape] at hok
  | true =>
    refine ⟨ColorEllipse.new ⟨x, y⟩ (colors.getD s.colorIndex ColorF.Yellow), ?_⟩
    have hlen : colors.length = 6 := rfl
    have hcol : colors[s.colorIndex]? = some (colors.getD s.colorIndex ColorF.Yellow) := by
      rw [List.getD_eq_getElem?_getD]
      have hlt : s.colorIndex < colors.length := by rw [hlen]; exact hc
      rw [List.getElem?_eq_getElem hlt]
      rfl
    have hwrap : (s.colorIndex + 1) % 2 ^ 64 = s.colorIndex + 1 :=
      Nat.mod_eq_of_lt (by omega)
    refine ⟨rfl, rfl, rfl, rfl, rfl, hcol, ?_, ?_, ?_⟩
    · simp only [ShapeList.InsertShape, if_true, hwrap, hlen]
    · simp [ShapeList.InsertShape]
    · simp [ShapeList.InsertShape, ShapeList.selectedObject]

/-- Witness of `InsertShape_appends`: the second insertion into a list that holds one shape. -/
theorem InsertShape_appends_witness :
    ∃ e : ColorEllipse,
      ((ShapeList.new.InsertShape true 0 0).2.InsertShape true 3 4).2.shapes =
        (ShapeList.new.InsertShape true 0 0).2.shapes ++ [e] ∧
      e.ellipse.point = ⟨3, 4⟩ ∧ e.ellipse.radiusX = 1 ∧ e.ellipse.radiusY = 1 ∧
      e.rotation = 0 ∧ colors[(ShapeList.new.InsertShape true 0 0).2.colorIndex]? = some e.color ∧
      ((ShapeList.new.InsertShape true 0 0).2.InsertShape true 3 4).2.colorIndex =
        ((ShapeList.new.InsertShape true 0 0).2.colorIndex + 1) % 6 ∧
      ((ShapeList.new.InsertShape true 0 0).2.InsertShape true 3 4).2.pShape =
        some (ShapeList.new.InsertShape true 0 0).2.shapes.length ∧
      ((ShapeList.new.InsertShape true 0 0).2.InsertShape true 3 4).2.selectedObject = some e :=
  InsertShape_appends true (ShapeList.new.InsertShape true 0 0).2 3 4 (by decide) rfl

/-! ## SelectShape -/

/-- C3: `SelectShape(P)` returns true exactly when some item hits `P`; then the selection is
the item closest to the end of the list (the last inserted) that hits `P`; when it returns
false the selection is what it was; the items and the colour cursor never change. -/
theorem SelectShape_topmost (P : Platform) (s : ShapeList) (x y : ℚ) :
    ((s.SelectShape P x y).1 = true ↔ ∃ e ∈ s.shapes, e.HitTest P x y = true) ∧
    ((s.SelectShape P x y).1 = true →
      ∃ i e, (s.SelectShape P x y).2.pShape = some i ∧ s.shapes[i]? = some e ∧
        e.HitTest P x y = true ∧
        ∀ j e2, i < j → s.shapes[j]? = some e2 → e2.HitTest P x y = false) ∧
    ((s.SelectShape P x y).1 = false → (s.SelectShape P x y).2.pShape = s.pShape) ∧
    (s.SelectShape P x y).2.shapes = s.shapes ∧
    (s.SelectShape P x y).2.colorIndex = s.colorIndex := by
  cases hsc : ShapeList.scan P s.shapes x y s.shapes.length with
  | none =>
    have hres : s.SelectShape P x y = (false, s) := by
      simp only [ShapeList.SelectShape, hsc]
    have hnone := (scan_none_iff P s.shapes x y s.shapes.length).mp hsc
    have hno : ¬ ∃ e ∈ s.shapes, e.HitTest P x y = true := by
      rintro ⟨e, hmem, hhit⟩
      obtain ⟨j, hj, hje⟩ := List.getElem_of_mem hmem
      have := hnone j e hj (by rw [List.getElem?_eq_getElem hj, hje])
      rw [hhit] at this
      cases this
    rw [hres]
    simp only [Bool.false_eq_true, false_iff, false_implies, true_and, and_true, implies_true]
    exact hno
  | some i =>
    have hres : s.SelectShape P x y = (true, { s with pShape := some i }) := by
      simp only [ShapeList.SelectShape, hsc]
    obtain ⟨_, ⟨e, hie, hhit⟩, hlast⟩ := scan_some P s.shapes x y s.shapes.length i hsc
    have hmem : e ∈ s.shapes := by
      rcases List.getElem?_eq_some_iff.mp hie with ⟨h, he⟩
      rw [← he]
      exact List.getElem_mem h
    rw [hres]
    simp only [true_iff, true_implies, Bool.true_eq_false, false_implies, true_and, and_true]
    refine ⟨⟨e, hmem, hhit⟩, i, e, rfl, hie, hhit, ?_⟩
    intro j e2 hij hj
    have hjl : j < s.shapes.length := by
      rcases List.getElem?_eq_some_iff.mp hj with ⟨h, _⟩
      exact h
    exact hlast j e2 hij hjl hj

/-- Witness of `SelectShape_topmost`: with `A` below `B` and `(1, 1)` inside both, the call
returns true and selects `B`, the node at position 1. -/
theorem SelectShape_topmost_witness :
    (overlap.SelectShape platform96 1 1).1 = true ∧
    (overlap.SelectShape platform96 1 1).2.pShape = some 1 ∧
    (((overlap.SelectShape platform96 1 1).1 = true ↔
        ∃ e ∈ overlap.shapes, e.HitTest platform96 1 1 = true) ∧
      ((overlap.SelectShape platform96 1 1).1 = true →
        ∃ i e, (overlap.SelectShape platform96 1 1).2.pShape = some i ∧
          overlap.shapes[i]? = some e ∧ e.HitTest platform96 1 1 = true ∧
          ∀ j e2, i < j → overlap.shapes[j]? = some e2 → e2.HitTest platform96 1 1 = false) ∧
      ((overlap.SelectShape platform96 1 1).1 = false →
        (overlap.SelectShape platform96 1 1).2.pShape = overlap.pShape) ∧
      (overlap.SelectShape platform96 1 1).2.shapes = overlap.shapes ∧
      (overlap.SelectShape platform96 1 1).2.colorIndex = overlap.colorIndex) := by
  have hB : ShapeList.scan platform96 overlap.shapes 1 1 overlap.shapes.length = some 1 := by
    decide!
  have hres : overlap.SelectShape platform96 1 1 = (true, { overlap with pShape := some 1 }) := by
    simp only [ShapeList.SelectShape, hB]
  exact ⟨by rw [hres], by rw [hres], SelectShape_topmost platform96 overlap 1 1⟩

/-! ## Writes through the selection pointer -/

theorem updateSelected_none (f : ColorEllipse → ColorEllipse) (s : ShapeList)
    (h : s.pShape = none) : s.updateSelected f = s := by
  simp [ShapeList.updateSelected, h]

theorem updateSelected_dangling (f : ColorEllipse → ColorEllipse) (s : ShapeList) (i : Nat)
    (hp : s.pShape = some i) (hi : s.shapes[i]? = none) : s.updateSelected f = s := by
  simp [ShapeList.updateSelected, hp, hi]

theorem updateSelected_some (f : ColorEllipse → ColorEllipse) (s : ShapeList) (i : Nat)
    (e : ColorEllipse) (hp : s.pShape = some i) (hi : s.shapes[i]? = some e) :
    s.updateSelected f = { s with shapes := s.shapes.set i (f e) } := by
  simp [ShapeList.updateSelected, hp, hi]

theorem updateSelected_pShape (f : ColorEllipse → ColorEllipse) (s : ShapeList) :
    (s.updateSelected f).pShape = s.pShape := by
  cases hp : s.pShape with
  | none => rw [updateSelected_none f s hp, hp]
  | some i =>
    cases hi : s.shapes[i]? with
    | none => rw [updateSelected_dangling f s i hp hi, hp]
    | some e => rw [updateSelected_some f s i e hp hi, hp]

theorem updateSelected_colorIndex (f : ColorEllipse → ColorEllipse) (s : ShapeList) :
    (s.updateSelected f).colorIndex = s.colorIndex := by
  cases hp : s.pShape with
  | none => rw [updateSelected_none f s hp]
  | some i =>
    cases hi : s.shapes[i]? with
    | none => rw [updateSelected_dangling f s i hp hi]
    | some e => rw [updateSelected_some f s i e hp hi]

theorem updateSelected_length (f : ColorEllipse → ColorEllipse) (s : ShapeList) :
    (s.updateSelected f).shapes.length = s.shapes.length := by
  cases hp : s.pShape with
  | none => rw [updateSelected_none f s hp]
  | some i =>
    cases hi : s.shapes[i]? with
    | none => rw [updateSelected_dangling f s i hp hi]
    | some e => rw [updateSelected_some f s i e hp hi]; simp

theorem updateSelected_getElem? (f : ColorEllipse → ColorEllipse) (s : ShapeList) (k : Nat) :
    (s.updateSelected f).shapes[k]? =
      if s.pShape = some k then (s.shapes[k]?).map f else s.shapes[k]? := by
  cases hp : s.pShape with
  | none => rw [updateSelected_none f s hp]; simp
  | some i =>
    cases hi : s.shapes[i]? with
    | none =>
      rw [updateSelected_dangling f s i hp hi]
      by_cases hik : i = k
      · subst hik; simp [hi]
      · simp [hik]
    | some e =>
      rw [updateSelected_some f s i e hp hi]
      have hlt : i < s.shapes.length := (List.getElem?_eq_some_iff.mp hi).1
      by_cases hik : i = k
      · subst hik; simp [hi, List.getElem?_set, hlt]
      · simp [hik, List.getElem?_set]

/-! ## Round-robin colouring -/

theorem SelectShape_shapes (P : Platform) (s : ShapeList) (x y : ℚ) :
    (s.SelectShape P x y).2.shapes = s.shapes ∧
    (s.SelectShape P x y).2.colorIndex = s.colorIndex := by
  unfold ShapeList.SelectShape
  cases ShapeList.scan P s.shapes x y s.shapes.length <;> exact ⟨rfl, rfl⟩

theorem RoundRobin_updateSelected (f : ColorEllipse → ColorEllipse)
    (hf : ∀ e, (f e).color = e.color) (s : ShapeList) (h : s.RoundRobin) :
    (s.updateSelected f).RoundRobin := by
  refine ⟨?_, ?_⟩
  · rw [updateSelected_colorIndex, updateSelected_length]; exact h.1
  · intro k e hk
    rw [updateSelected_getElem?] at hk
    by_cases hsel : s.pShape = some k
    · rw [if_pos hsel] at hk
      cases hold : s.shapes[k]? with
      | none => rw [hold] at hk; cases hk
      | some e0 =>
        rw [hold] at hk
        simp only [Option.map_some', Option.some.injEq] at hk
        rw [← hk, hf]
        exact h.2 k e0 hold
    · rw [if_neg hsel] at hk
      exact h.2 k e hk

theorem RoundRobin_InsertShape (alloc : Bool) (s : ShapeList) (x y : ℚ) (h : s.RoundRobin) :
    (s.InsertShape alloc x y).2.RoundRobin := by
  cases alloc with
  | false => exact h
  | true =>
    have hlen : colors.length = 6 := rfl
    have hlt : s.shapes.length % 6 < colors.length := by rw [hlen]; exact Nat.mod_lt _ (by decide)
    have hcol : colors[s.shapes.length % 6]? =
        some (colors.getD s.colorIndex ColorF.Yellow) := by
      rw [h.1, List.getD_eq_getElem?_getD, List.getElem?_eq_getElem hlt]
      rfl
    refine ⟨?_, ?_⟩
    · have h6 : s.colorIndex < 6 := by rw [h.1]; exact Nat.mod_lt _ (by decide)
      have hwrap : (s.colorIndex + 1) % 2 ^ 64 = s.colorIndex + 1 :=
        Nat.mod_eq_of_lt (by omega)
      simp only [ShapeList.InsertShape, if_true, hwrap, hlen, List.length_append,
        List.length_singleton]
      rw [h.1]
      omega
    · intro k e hk
      simp only [ShapeList.InsertShape, if_true] at hk
      by_cases hkl : k < s.shapes.length
      · rw [List.getElem?_append_left hkl] at hk
        exact h.2 k e hk
      · have hge : s.shapes.length ≤ k := Nat.le_of_not_lt hkl
        rw [List.getElem?_append_right hge] at hk
        by_cases hk0 : k - s.shapes.length = 0
        · have hkeq : k = s.shapes.length := by omega
          rw [hk0] at hk
          simp only [List.getElem?_cons_zero, Option.some.injEq] at hk
          rw [← hk, hkeq, hcol]
          rfl
        · obtain ⟨m, hm⟩ := Nat.exists_eq_succ_of_ne_zero hk0
          rw [hm] at hk
          simp at hk

theorem RoundRobin_applyOp (P : Platform) (s : ShapeList) (op : ShapeOp) (h : s.RoundRobin) :
    (s.applyOp P op).RoundRobin := by
  cases op with
  | InsertShape alloc x y => exact RoundRobin_InsertShape alloc s x y h
  | SelectShape x y =>
    obtain ⟨h1, h2⟩ := SelectShape_shapes P s x y
    refine ⟨?_, ?_⟩
    · show (s.SelectShape P x y).2.colorIndex = (s.SelectShape P x y).2.shapes.length % 6
      rw [h1, h2]; exact h.1
    · intro k e hk
      have hk2 : (s.SelectShape P x y).2.shapes[k]? = some e := hk
      rw [h1] at hk2
      exact h.2 k e hk2
  | ClearSelection => exact h
  | setShape shape =>
    exact RoundRobin_updateSelected (fun e => { e with ellipse := shape }) (fun _ => rfl) s h
  | setPoint point =>
    exact RoundRobin_updateSelected
      (fun e => { e with ellipse := { e.ellipse with point := point } }) (fun _ => rfl) s h
  | addRotation r =>
    exact RoundRobin_updateSelected (fun e => { e with rotation := round32 (e.rotation + r) })
      (fun _ => rfl) s h

theorem RoundRobin_runOps (P : Platform) (ops : List ShapeOp) (s : ShapeList)
    (h : s.RoundRobin) : (s.runOps P ops).RoundRobin := by
  induction ops generalizing s with
  | nil => exact h
  | cons op ops ih => exact ih (s.applyOp P op) (RoundRobin_applyOp P s op h)

theorem length_applyOp (P : Platform) (s : ShapeList) (op : ShapeOp) :
    (s.applyOp P op).shapes.length = s.shapes.length + ShapeOp.insertions [op] := by
  cases op with
  | InsertShape alloc x y =>
    cases alloc <;> simp [ShapeList.applyOp, ShapeList.InsertShape, ShapeOp.insertions]
  | SelectShape x y =>
    simp [ShapeList.applyOp, ShapeOp.insertions, (SelectShape_shapes P s x y).1]
  | ClearSelection => simp [ShapeList.applyOp, ShapeOp.insertions, ShapeList.ClearSelection]
  | setShape shape =>
    simp [ShapeList.applyOp, ShapeOp.insertions, ShapeList.setShape, updateSelected_length]
  | setPoint point =>
    simp [ShapeList.applyOp, ShapeOp.insertions, ShapeList.setPoint, updateSelected_length]
  | addRotation r =>
    simp [ShapeList.applyOp, ShapeOp.insertions, ShapeList.addRotation, updateSelected_length]

theorem insertions_cons (op : ShapeOp) (ops : List ShapeOp) :
    ShapeOp.insertions (op :: ops) = ShapeOp.insertions [op] + ShapeOp.insertions ops := by
  cases op with
  | InsertShape alloc x y =>
    cases alloc
    · simp [ShapeOp.insertions]
    · simp [ShapeOp.insertions]; omega
  | SelectShape x y => simp [ShapeOp.insertions]
  | ClearSelection => simp [ShapeOp.insertions]
  | setShape shape => simp [ShapeOp.insertions]
  | setPoint point => simp [ShapeOp.insertions]
  | addRotation r => simp [ShapeOp.insertions]

theorem length_runOps (P : Platform) (ops : List ShapeOp) (s : ShapeList) :
    (s.runOps P ops).shapes.length = s.shapes.length + ShapeOp.insertions ops := by
  induction ops generalizing s with
  | nil => simp [ShapeList.runOps, ShapeOp.insertions]
  | cons op ops ih =>
    have h := ih (s.applyOp P op)
    rw [length_applyOp] at h
    rw [insertions_cons, ← Nat.add_assoc, ← h]
    rfl

theorem RoundRobin_new : ShapeList.new.RoundRobin := by
  refine ⟨rfl, ?_⟩
  intro k e hk
  simp [ShapeList.new] at hk

/-! ## The handlers only use the shape-list operations -/

theorem SetMode_ellipses (w : DrawingWindow) (m : Mode) : (w.SetMode m).ellipses = w.ellipses :=
  rfl

theorem OnLeftButtonDown_ops (P : Platform) (w : DrawingWindow) (x y : Int) (d a : Bool) :
    ∃ ops, (w.OnLeftButtonDown P x y d a).ellipses = w.ellipses.runOps P ops ∧
      (ops.length ≤ 1 ∨ ∃ u v, ops = [ShapeOp.ClearSelection, ShapeOp.SelectShape u v]) := by
  unfold DrawingWindow.OnLeftButtonDown
  by_cases hm : w.mode = Mode.DrawMode
  · cases d with
    | false => exact ⟨[], by simp [hm, ShapeList.runOps], Or.inl (by simp)⟩
    | true =>
      exact ⟨[ShapeOp.InsertShape a (PixelsToDIPs P x y).x (PixelsToDIPs P x y).y],
        by simp [hm, ShapeList.runOps, ShapeList.applyOp], Or.inl (by simp)⟩
  · refine ⟨[ShapeOp.ClearSelection,
      ShapeOp.SelectShape (PixelsToDIPs P x y).x (PixelsToDIPs P x y).y], ?_,
      Or.inr ⟨_, _, rfl⟩⟩
    simp only [hm, if_false, ShapeList.runOps, List.foldl, ShapeList.applyOp]
    split
    · split <;> rfl
    · rfl

theorem OnMouseMove_ops (P : Platform) (w : DrawingWindow) (x y : Int) (flags : Nat) :
    ∃ ops, (w.OnMouseMove P x y flags).ellipses = w.ellipses.runOps P ops ∧ ops.length ≤ 1 := by
  unfold DrawingWindow.OnMouseMove
  by_cases hf : flags &&& MK_LBUTTON ≠ 0
  · by_cases hm : w.mode = Mode.DrawMode
    · rw [if_pos hf, if_pos hm]
      exact ⟨[ShapeOp.setShape _], rfl, by simp⟩
    · by_cases hd : w.mode = Mode.DragMode
      · rw [if_pos hf, if_neg hm, if_pos hd]
        exact ⟨[ShapeOp.setPoint _], rfl, by simp⟩
      · rw [if_pos hf, if_neg hm, if_neg hd]
        exact ⟨[], rfl, by simp⟩
  · rw [if_neg hf]
    exact ⟨[], rfl, by simp⟩

theorem OnLeftButtonUp_ops (P : Platform) (w : DrawingWindow) :
    ∃ ops, w.OnLeftButtonUp.ellipses = w.ellipses.runOps P ops ∧ ops.length ≤ 1 := by
  unfold DrawingWindow.OnLeftButtonUp
  by_cases hm : w.mode = Mode.DrawMode
  · by_cases hs : w.ellipses.SelectedShape.isSome = true
    · simp only [hm, hs, if_true]
      exact ⟨[ShapeOp.ClearSelection], rfl, by simp⟩
    · simp only [hm, hs, if_true, if_false]
      exact ⟨[], rfl, by simp⟩
  · by_cases hd : w.mode = Mode.DragMode
    · simp only [hm, hd, if_true, if_false]
      exact ⟨[], rfl, by simp⟩
    · simp only [hm, hd, if_false]
      exact ⟨[], rfl, by simp⟩

theorem OnCommand_ellipses (w : DrawingWindow) (id : CommandId) :
    (w.OnCommand id).ellipses = w.ellipses := by
  cases id with
  | ID_DRAW_MODE => rfl
  | ID_SELECT_MODE => rfl
  | ID_TOGGLE_MODE =>
    unfold DrawingWindow.OnCommand
    by_cases hm : w.mode = Mode.DrawMode
    · simp only [hm, if_true]; rfl
    · simp only [hm, if_false]; rfl
  | other n => rfl

theorem HandleMessage_ops (P : Platform) (w : DrawingWindow) (m : Msg) :
    ∃ ops, (w.HandleMessage P m).ellipses = w.ellipses.runOps P ops ∧
      (ops.length ≤ 1 ∨ ∃ u v, ops = [ShapeOp.ClearSelection, ShapeOp.SelectShape u v]) := by
  cases m with
  | WM_LBUTTONDOWN x y d a => exact OnLeftButtonDown_ops P w x y d a
  | WM_LBUTTONUP =>
    obtain ⟨ops, h1, h2⟩ := OnLeftButtonUp_ops P w
    exact ⟨ops, h1, Or.inl h2⟩
  | WM_MOUSEMOVE x y f =>
    obtain ⟨ops, h1, h2⟩ := OnMouseMove_ops P w x y f
    exact ⟨ops, h1, Or.inl h2⟩
  | WM_MOUSEWHEEL delta present =>
    cases present with
    | false => exact ⟨[], rfl, Or.inl (by simp)⟩
    | true => exact ⟨[ShapeOp.addRotation _], rfl, Or.inl (by simp)⟩
  | WM_KEYDOWN id => exact ⟨[], OnCommand_ellipses w id, Or.inl (by simp)⟩
  | WM_COMMAND id => exact ⟨[], OnCommand_ellipses w id, Or.inl (by simp)⟩

theorem RoundRobin_run (P : Platform) (ms : List Msg) (w : DrawingWindow)
    (h : w.ellipses.RoundRobin) : (w.run P ms).ellipses.RoundRobin := by
  induction ms generalizing w with
  | nil => exact h
  | cons m ms ih =>
    apply ih (w.HandleMessage P m)
    obtain ⟨ops, hops, _⟩ := HandleMessage_ops P w m
    rw [hops]
    exact RoundRobin_runOps P ops w.ellipses h

/-- C2: starting from a freshly constructed `ShapeList`, after any sequence of `InsertShape`,
`SelectShape`, `ClearSelection`, pointer-move writes and wheel writes, the list holds as
many shapes as there were successful insertions, and the shape at position `k` (the
`k+1`-th inserted) has colour `colors[k mod 6]`, with
`colors = [Yellow, Salmon, LimeGreen, Aqua, Beige, Violet]`; the same holds for the list of
a freshly constructed window after any sequence of input messages. -/
theorem round_robin_colors (P : Platform) (ops : List ShapeOp) (ms : List Msg) :
    colors = [ColorF.Yellow, ColorF.Salmon, ColorF.LimeGreen, ColorF.Aqua, ColorF.Beige,
      ColorF.Violet] ∧
    (ShapeList.new.runOps P ops).shapes.length = ShapeOp.insertions ops ∧
    (∀ k e, (ShapeList.new.runOps P ops).shapes[k]? = some e →
      colors[k % 6]? = some e.color) ∧
    (∀ k e, (DrawingWindow.new.run P ms).ellipses.shapes[k]? = some e →
      colors[k % 6]? = some e.color) := by
  refine ⟨rfl, ?_, (RoundRobin_runOps P ops ShapeList.new RoundRobin_new).2,
    (RoundRobin_run P ms DrawingWindow.new RoundRobin_new).2⟩
  rw [length_runOps]
  simp [ShapeList.new]

/-! ## Selection validity and growth of the item list -/

theorem SelectionValid_updateSelected (f : ColorEllipse → ColorEllipse) (s : ShapeList)
    (h : s.SelectionValid) : (s.updateSelected f).SelectionValid := by
  intro i hi
  rw [updateSelected_pShape] at hi
  rw [updateSelected_length]
  exact h i hi

theorem SelectionValid_SelectShape (P : Platform) (s : ShapeList) (x y : ℚ)
    (h : s.SelectionValid) : (s.SelectShape P x y).2.SelectionValid := by
  unfold ShapeList.SelectShape
  cases hsc : ShapeList.scan P s.shapes x y s.shapes.length with
  | none => exact h
  | some i =>
    intro j hj
    have hij : i = j := by simpa using hj
    subst hij
    exact (scan_some P s.shapes x y s.shapes.length i hsc).1

theorem SelectionValid_InsertShape (alloc : Bool) (s : ShapeList) (x y : ℚ)
    (h : s.SelectionValid) : (s.InsertShape alloc x y).2.SelectionValid := by
  cases alloc with
  | false => exact h
  | true =>
    intro i hi
    simp only [ShapeList.InsertShape, if_true, Option.some.injEq] at hi
    simp only [ShapeList.InsertShape, if_true]
    rw [← hi]
    simp

theorem SelectionValid_applyOp (P : Platform) (s : ShapeList) (op : ShapeOp)
    (h : s.SelectionValid) : (s.applyOp P op).SelectionValid := by
  cases op with
  | InsertShape alloc x y => exact SelectionValid_InsertShape alloc s x y h
  | SelectShape x y => exact SelectionValid_SelectShape P s x y h
  | ClearSelection =>
    intro i hi
    simp [ShapeList.applyOp, ShapeList.ClearSelection] at hi
  | setShape shape =>
    exact SelectionValid_updateSelected (fun e => { e with ellipse := shape }) s h
  | setPoint point =>
    exact SelectionValid_updateSelected
      (fun e => { e with ellipse := { e.ellipse with point := point } }) s h
  | addRotation r =>
    exact SelectionValid_updateSelected (fun e => { e with rotation := round32 (e.rotation + r) }) s h

theorem SelectionValid_runOps (P : Platform) (ops : List ShapeOp) (s : ShapeList)
    (h : s.SelectionValid) : (s.runOps P ops).SelectionValid := by
  induction ops generalizing s with
  | nil => exact h
  | cons op ops ih => exact ih (s.applyOp P op) (SelectionValid_applyOp P s op h)

theorem SelectionValid_run (P : Platform) (ms : List Msg) (w : DrawingWindow)
    (h : w.ellipses.SelectionValid) : (w.run P ms).ellipses.SelectionValid := by
  induction ms generalizing w with
  | nil => exact h
  | cons m ms ih =>
    apply ih (w.HandleMessage P m)
    obtain ⟨ops, hops, _⟩ := HandleMessage_ops P w m
    rw [hops]
    exact SelectionValid_runOps P ops w.ellipses h

theorem KeepsItems_of_shapes_eq (s t : ShapeList) (h : t.shapes = s.shapes) :
    s.KeepsItems t := by
  refine ⟨by rw [h], ?_⟩
  intro i e hi
  exact ⟨e, by rw [h]; exact hi, rfl, fun _ => rfl⟩

theorem KeepsItems_updateSelected (f : ColorEllipse → ColorEllipse)
    (hf : ∀ e, (f e).color = e.color) (s : ShapeList) : s.KeepsItems (s.updateSelected f) := by
  refine ⟨by rw [updateSelected_length], ?_⟩
  intro i e hi
  rw [updateSelected_getElem?]
  by_cases hsel : s.pShape = some i
  · rw [if_pos hsel, hi]
    exact ⟨f e, rfl, hf e, fun hne => absurd hsel hne⟩
  · rw [if_neg hsel]
    exact ⟨e, hi, rfl, fun _ => rfl⟩

theorem KeepsItems_InsertShape (alloc : Bool) (s : ShapeList) (x y : ℚ) :
    s.KeepsItems (s.InsertShape alloc x y).2 := by
  cases alloc with
  | false => exact KeepsItems_of_shapes_eq s s rfl
  | true =>
    refine ⟨by simp [ShapeList.InsertShape], ?_⟩
    intro i e hi
    have hlt : i < s.shapes.length := (List.getElem?_eq_some_iff.mp hi).1
    refine ⟨e, ?_, rfl, fun _ => rfl⟩
    simp only [ShapeList.InsertShape, if_true]
    rw [List.getElem?_append_left hlt]
    exact hi

theorem KeepsItems_applyOp (P : Platform) (s : ShapeList) (op : ShapeOp) :
    s.KeepsItems (s.applyOp P op) := by
  cases op with
  | InsertShape alloc x y => exact KeepsItems_InsertShape alloc s x y
  | SelectShape x y => exact KeepsItems_of_shapes_eq s _ (SelectShape_shapes P s x y).1
  | ClearSelection => exact KeepsItems_of_shapes_eq s _ rfl
  | setShape shape =>
    exact KeepsItems_updateSelected (fun e => { e with ellipse := shape }) (fun _ => rfl) s
  | setPoint point =>
    exact KeepsItems_updateSelected
      (fun e => { e with ellipse := { e.ellipse with point := point } }) (fun _ => rfl) s
  | addRotation r =>
    exact KeepsItems_updateSelected (fun e => { e with rotation := round32 (e.rotation + r) })
      (fun _ => rfl) s

theorem KeepsItems_HandleMessage (P : Platform) (w : DrawingWindow) (m : Msg) :
    w.ellipses.KeepsItems (w.HandleMessage P m).ellipses := by
  obtain ⟨ops, hops, hform⟩ := HandleMessage_ops P w m
  rw [hops]
  rcases hform with hlen | ⟨u, v, hcs⟩
  · match ops, hlen with
    | [], _ => exact KeepsItems_of_shapes_eq _ _ rfl
    | [op], _ => exact KeepsItems_applyOp P w.ellipses op
  · rw [hcs]
    apply KeepsItems_of_shapes_eq
    show (w.ellipses.ClearSelection.SelectShape P u v).2.shapes = w.ellipses.shapes
    rw [(SelectShape_shapes P w.ellipses.ClearSelection u v).1]
    rfl

/-- C10: in every state reached from a freshly constructed window by input messages the
selection is null or points at a node of the item list; and handling one more message
never shortens the list, keeps every node at its position with its colour, and leaves
every node other than the selected one exactly as it was. -/
theorem selection_valid_items_kept (P : Platform) (ms : List Msg) (m : Msg) :
    (∀ i, (DrawingWindow.new.run P ms).ellipses.pShape = some i →
      i < (DrawingWindow.new.run P ms).ellipses.shapes.length) ∧
    (DrawingWindow.new.run P ms).ellipses.shapes.length ≤
      ((DrawingWindow.new.run P ms).HandleMessage P m).ellipses.shapes.length ∧
    (∀ i e, (DrawingWindow.new.run P ms).ellipses.shapes[i]? = some e →
      ∃ e2, ((DrawingWindow.new.run P ms).HandleMessage P m).ellipses.shapes[i]? = some e2 ∧
        e2.color = e.color ∧
        ((DrawingWindow.new.run P ms).ellipses.pShape ≠ some i → e2 = e)) := by
  have hvalid : DrawingWindow.new.ellipses.SelectionValid := by
    intro i hi
    simp [DrawingWindow.new, ShapeList.new] at hi
  have hkeep := KeepsItems_HandleMessage P (DrawingWindow.new.run P ms) m
  exact ⟨SelectionValid_run P ms DrawingWindow.new hvalid, hkeep.1, hkeep.2⟩

/-! ## Draw-mode pointer move -/

theorem pressedAt2010_eq :
    pressedAt2010 =
      { ptMouse := ⟨20, 10⟩, drawStartPos := ⟨20, 10⟩, dragObjRelPos := ⟨0, 0⟩
        mode := Mode.DrawMode, hCursor := none
        ellipses := { shapes := [ColorEllipse.new ⟨20, 10⟩ ColorF.Yellow], pShape := some 0
                      colorIndex := 1 } } := by
  decide!

/-- C6 (the code at the failing input): whatever the current mode, the command
`ID_DRAW_MODE` leaves the window in Drag mode, not in Draw mode, while `ID_SELECT_MODE`
leaves it in Select mode. -/
theorem OnCommand_direct (w : DrawingWindow) :
    (w.OnCommand CommandId.ID_DRAW_MODE).mode = Mode.DragMode ∧
    (w.OnCommand CommandId.ID_DRAW_MODE).mode ≠ Mode.DrawMode ∧
    (w.OnCommand CommandId.ID_SELECT_MODE).mode = Mode.SelectionMode := by
  refine ⟨rfl, ?_, rfl⟩
  show Mode.DragMode ≠ Mode.DrawMode
  decide

theorem grabMessages_mode :
    (DrawingWindow.new.run platform96 grabMessages).mode = Mode.DragMode := by
  decide!

/-- C7 (as stated, refuted): after drawing an ellipse, toggling to Select mode and pressing
inside the ellipse the window is in Drag mode; `ID_TOGGLE_MODE` is then not ignored, it
puts the window in Draw mode. -/
theorem toggle_in_drag_not_ignored :
    (DrawingWindow.new.run platform96 grabMessages).mode = Mode.DragMode ∧
    ((DrawingWindow.new.run platform96 grabMessages).OnCommand CommandId.ID_TOGGLE_MODE).mode =
      Mode.DrawMode ∧
    ((DrawingWindow.new.run platform96 grabMessages).OnCommand CommandId.ID_TOGGLE_MODE).mode ≠
      Mode.DragMode := by
  have h : ((DrawingWindow.new.run platform96 grabMessages).OnCommand
      CommandId.ID_TOGGLE_MODE).mode = Mode.DrawMode := by
    simp [DrawingWindow.OnCommand, grabMessages_mode, DrawingWindow.SetMode]
  refine ⟨grabMessages_mode, h, ?_⟩
  rw [h]
  decide

/-- C7 (amended): `ID_TOGGLE_MODE` in Draw mode yields Select mode, in Select mode yields
Draw mode and in Drag mode yields Draw mode; the toggle never results in Drag mode. -/
theorem OnCommand_toggle (w : DrawingWindow) :
    (w.OnCommand CommandId.ID_TOGGLE_MODE).mode =
      (match w.mode with
        | Mode.DrawMode => Mode.SelectionMode
        | Mode.SelectionMode => Mode.DrawMode
        | Mode.DragMode => Mode.DrawMode) ∧
    (w.OnCommand CommandId.ID_TOGGLE_MODE).mode ≠ Mode.DragMode := by
  unfold DrawingWindow.OnCommand
  cases hm : w.mode <;> simp [DrawingWindow.SetMode]

/-! ## The drag gesture -/

theorem OnLeftButtonDown_hit (P : Platform) (w : DrawingWindow) (px py : Int) (d a : Bool)
    (i : Nat) (S : ColorEllipse) (hmode : w.mode ≠ Mode.DrawMode)
    (hsc : ShapeList.scan P w.ellipses.shapes (PixelsToDIPs P px py).x (PixelsToDIPs P px py).y
      w.ellipses.shapes.length = some i)
    (hS : w.ellipses.shapes[i]? = some S) :
    w.OnLeftButtonDown P px py d a =
      { ptMouse := PixelsToDIPs P px py
        drawStartPos := w.drawStartPos
        dragObjRelPos := ⟨round32 (S.ellipse.point.x - (PixelsToDIPs P px py).x),
                          round32 (S.ellipse.point.y - (PixelsToDIPs P px py).y)⟩
        mode := Mode.DragMode
        hCursor := some Cursor.IDC_SIZEALL
        ellipses := { shapes := w.ellipses.shapes, pShape := some i
                      colorIndex := w.ellipses.colorIndex } } := by
  unfold DrawingWindow.OnLeftButtonDown
  simp only [hmode, if_false, ShapeList.SelectShape, ShapeList.ClearSelection, hsc, if_true,
    ShapeList.selectedObject, hS, DrawingWindow.SetMode]

theorem OnLeftButtonDown_miss (P : Platform) (w : DrawingWindow) (px py : Int) (d a : Bool)
    (hmode : w.mode ≠ Mode.DrawMode)
    (hsc : ShapeList.scan P w.ellipses.shapes (PixelsToDIPs P px py).x (PixelsToDIPs P px py).y
      w.ellipses.shapes.length = none) :
    w.OnLeftButtonDown P px py d a =
      { ptMouse := PixelsToDIPs P px py
        drawStartPos := w.drawStartPos
        dragObjRelPos := w.dragObjRelPos
        mode := w.mode
        hCursor := w.hCursor
        ellipses := { shapes := w.ellipses.shapes, pShape := none
                      colorIndex := w.ellipses.colorIndex } } := by
  unfold DrawingWindow.OnLeftButtonDown
  simp only [hmode, if_false, ShapeList.SelectShape, ShapeList.ClearSelection, hsc,
    Bool.false_eq_true]

/-- C8 (as stated, refuted): at 120 DPI the circle with centre `(8, 8)` and radius 8 has been
drawn and the window is in Select mode; a press at pixel `(1, 10)`, a point `p` inside the
circle, enters Drag mode and selects the circle, but the recorded offset is not
`S.center - p`, and after a move to pixel `(3, 10)`, the point `q`, the centre is not
`q + dragObjRelPos`: both operations are rounded to binary32. -/
theorem drag_offset_rounded :
    drawn120.mode = Mode.SelectionMode ∧ drawn120.ellipses.shapes = [circle8] ∧
    circle8.HitTest platform120 (PixelsToDIPs platform120 1 10).x
      (PixelsToDIPs platform120 1 10).y = true ∧
    grabbed120.mode = Mode.DragMode ∧ grabbed120.ellipses.pShape = some 0 ∧
    grabbed120.dragObjRelPos.x ≠ circle8.ellipse.point.x - (PixelsToDIPs platform120 1 10).x ∧
    ∃ e, (grabbed120.OnMouseMove platform120 3 10 1).ellipses.shapes = [e] ∧
      e.ellipse.point.x ≠ (PixelsToDIPs platform120 3 10).x + grabbed120.dragObjRelPos.x := by
  refine ⟨by decide!, by decide!, by decide!, by decide!, by decide!, by decide!, ?_⟩
  refine ⟨{ ellipse := { point := ⟨5033165 / 524288, 8⟩, radiusX := 8, radiusY := 8 }
            color := ColorF.Yellow, rotation := 0 }, by decide!, by decide!⟩

/-- C8 (amended): in Select mode, a press at `p` inside some shape selects the topmost shape
`S` that contains `p` (no item is changed), records
`dragObjRelPos = fl (S.center - p)` and enters Drag mode; a following move to `q` with the
button held puts the centre of `S` at `fl (q + dragObjRelPos)`, both operations rounded to
binary32 (`fl = round32`), and changes nothing else (no other shape, no radius, colour or
rotation, not the selection or the mode); the following release returns to Select mode.  A
press at a point inside no shape leaves the mode Select, the selection empty and the items
unchanged. -/
theorem drag_gesture (P : Platform) (w : DrawingWindow) (px py qx qy : Int) (flags : Nat)
    (d a : Bool) (hmode : w.mode = Mode.SelectionMode) (hbtn : flags &&& MK_LBUTTON ≠ 0) :
    ((∃ e ∈ w.ellipses.shapes,
        e.HitTest P (PixelsToDIPs P px py).x (PixelsToDIPs P px py).y = true) →
      ∃ i S,
        w.ellipses.shapes[i]? = some S ∧
        S.HitTest P (PixelsToDIPs P px py).x (PixelsToDIPs P px py).y = true ∧
        (∀ j e2, i < j → w.ellipses.shapes[j]? = some e2 →
          e2.HitTest P (PixelsToDIPs P px py).x (PixelsToDIPs P px py).y = false) ∧
        (w.OnLeftButtonDown P px py d a).ellipses.pShape = some i ∧
        (w.OnLeftButtonDown P px py d a).ellipses.shapes = w.ellipses.shapes ∧
        (w.OnLeftButtonDown P px py d a).dragObjRelPos =
          ⟨round32 (S.ellipse.point.x - (PixelsToDIPs P px py).x),
           round32 (S.ellipse.point.y - (PixelsToDIPs P px py).y)⟩ ∧
        (w.OnLeftButtonDown P px py d a).mode = Mode.DragMode ∧
        (w.OnLeftButtonDown P px py d a).OnMouseMove P qx qy flags =
          (w.OnLeftButtonDown P px py d a).withShapes (w.ellipses.shapes.set i
            { ellipse :=
                { point :=
                    ⟨round32 ((PixelsToDIPs P qx qy).x +
                        round32 (S.ellipse.point.x - (PixelsToDIPs P px py).x)),
                     round32 ((PixelsToDIPs P qx qy).y +
                        round32 (S.ellipse.point.y - (PixelsToDIPs P px py).y))⟩
                  radiusX := S.ellipse.radiusX
                  radiusY := S.ellipse.radiusY }
              color := S.color
              rotation := S.rotation }) ∧
        ((w.OnLeftButtonDown P px py d a).OnMouseMove P qx qy flags).OnLeftButtonUp.mode =
          Mode.SelectionMode ∧
        ((w.OnLeftButtonDown P px py d a).OnMouseMove P qx qy flags).OnLeftButtonUp.ellipses =
          ((w.OnLeftButtonDown P px py d a).OnMouseMove P qx qy flags).ellipses) ∧
    ((∀ e ∈ w.ellipses.shapes,
        e.HitTest P (PixelsToDIPs P px py).x (PixelsToDIPs P px py).y = false) →
      (w.OnLeftButtonDown P px py d a).mode = Mode.SelectionMode ∧
      (w.OnLeftButtonDown P px py d a).ellipses.pShape = none ∧
      (w.OnLeftButtonDown P px py d a).ellipses.shapes = w.ellipses.shapes) := by
  have hnd : w.mode ≠ Mode.DrawMode := by rw [hmode]; decide
  constructor
  · rintro ⟨e, hmem, hhit⟩
    cases hsc : ShapeList.scan P w.ellipses.shapes (PixelsToDIPs P px py).x
        (PixelsToDIPs P px py).y w.ellipses.shapes.length with
    | none =>
      exfalso
      obtain ⟨j, hj, hje⟩ := List.getElem_of_mem hmem
      have := (scan_none_iff P _ _ _ _).mp hsc j e hj (by rw [List.getElem?_eq_getElem hj, hje])
      rw [hhit] at this
      cases this
    | some i =>
      obtain ⟨hlt, ⟨S, hS, hShit⟩, hlast⟩ := scan_some P _ _ _ _ i hsc
      have hdown := OnLeftButtonDown_hit P w px py d a i S hnd hsc hS
      refine ⟨i, S, hS, hShit, ?_, ?_, ?_, ?_, ?_, ?_⟩
      · intro j e2 hij hj
        exact hlast j e2 hij (List.getElem?_eq_some_iff.mp hj).1 hj
      · rw [hdown]
      · rw [hdown]
      · rw [hdown]
      · rw [hdown]
      · have hmove : ∀ w1 : DrawingWindow, w1.mode = Mode.DragMode →
            w1.ellipses.pShape = some i → w1.ellipses.shapes[i]? = some S →
            w1.OnMouseMove P qx qy flags =
              w1.withShapes (w1.ellipses.shapes.set i
                { ellipse :=
                    { point := ⟨round32 ((PixelsToDIPs P qx qy).x + w1.dragObjRelPos.x),
                                round32 ((PixelsToDIPs P qx qy).y + w1.dragObjRelPos.y)⟩
                      radiusX := S.ellipse.radiusX
                      radiusY := S.ellipse.radiusY }
                  color := S.color
                  rotation := S.rotation }) := by
          intro w1 h1 h2 h3
          have hne : w1.mode ≠ Mode.DrawMode := by rw [h1]; decide
          unfold DrawingWindow.OnMouseMove
          rw [if_pos hbtn, if_neg hne, if_pos h1]
          simp only [ShapeList.setPoint]
          rw [updateSelected_some _ w1.ellipses i S h2 h3]
          rfl
        have hm := hmove (w.OnLeftButtonDown P px py d a) (by rw [hdown]) (by rw [hdown])
          (by rw [hdown]; exact hS)
        have hup : ∀ w2 : DrawingWindow, w2.mode = Mode.DragMode →
            w2.OnLeftButtonUp.mode = Mode.SelectionMode ∧
            w2.OnLeftButtonUp.ellipses = w2.ellipses := by
          intro w2 h2
          have hne : w2.mode ≠ Mode.DrawMode := by rw [h2]; decide
          unfold DrawingWindow.OnLeftButtonUp
          rw [if_neg hne, if_pos h2]
          exact ⟨rfl, rfl⟩
        have hmode2 : ((w.OnLeftButtonDown P px py d a).OnMouseMove P qx qy flags).mode =
            Mode.DragMode := by
          rw [hm]
          show (w.OnLeftButtonDown P px py d a).mode = Mode.DragMode
          rw [hdown]
        refine ⟨?_, hup _ hmode2⟩
        rw [hm]
        rw [hdown]
  · intro hall
    have hsc : ShapeList.scan P w.ellipses.shapes (PixelsToDIPs P px py).x
        (PixelsToDIPs P px py).y w.ellipses.shapes.length = none := by
      rw [scan_none_iff]
      intro j e _ hje
      have hmem : e ∈ w.ellipses.shapes := by
        rcases List.getElem?_eq_some_iff.mp hje with ⟨h, he⟩
        rw [← he]
        exact List.getElem_mem h
      exact hall e hmem
    rw [OnLeftButtonDown_miss P w px py d a hnd hsc]
    exact ⟨hmode, rfl, rfl⟩

/-- Witness of `drag_gesture`: in Select mode over the two overlapping ellipses, a press at
`(1, 1)` enters Drag mode, and after a move to `(15, 15)` the release returns to Select
mode; a press at `(100, 100)`, inside no shape, stays in Select mode with nothing
selected. -/
theorem drag_gesture_witness :
    selecting.mode = Mode.SelectionMode ∧
    (selecting.OnLeftButtonDown platform96 1 1 false true).mode = Mode.DragMode ∧
    ((selecting.OnLeftButtonDown platform96 1 1 false true).OnMouseMove platform96 15 15
      1).OnLeftButtonUp.mode = Mode.SelectionMode ∧
    (selecting.OnLeftButtonDown platform96 100 100 false true).mode = Mode.SelectionMode ∧
    (selecting.OnLeftButtonDown platform96 100 100 false true).ellipses.pShape = none := by
  have hhit : ∃ e ∈ selecting.ellipses.shapes,
      e.HitTest platform96 (PixelsToDIPs platform96 1 1).x (PixelsToDIPs platform96 1 1).y =
        true :=
    ⟨axisEllipse, by simp [selecting, overlap], by decide!⟩
  have hmiss : ∀ e ∈ selecting.ellipses.shapes,
      e.HitTest platform96 (PixelsToDIPs platform96 100 100).x
        (PixelsToDIPs platform96 100 100).y = false := by
    decide!
  obtain ⟨_, _, _, _, _, _, _, _, hdrag, _, hup, _⟩ :=
    (drag_gesture platform96 selecting 1 1 15 15 1 false true rfl (by decide)).1 hhit
  obtain ⟨hsel, hnone, _⟩ :=
    (drag_gesture platform96 selecting 100 100 15 15 1 false true rfl (by decide)).2 hmiss
  exact ⟨rfl, hdrag, hup, hsel, hnone⟩

/-! ## Wheel rotation -/

/-- C9 (as stated, refuted): at 96 DPI a shape has just been inserted and is selected, with
rotation 0; `OnMouseWheel(100)` leaves it with rotation `13981013 / 4194304`, which is not
`0 + 100 / 120 * 4`. -/
theorem OnMouseWheel_not_exact :
    pressedAt2010.ellipses.selectedObject = some (ColorEllipse.new ⟨20, 10⟩ ColorF.Yellow) ∧
    (ColorEllipse.new ⟨20, 10⟩ ColorF.Yellow).rotation = 0 ∧
    ∃ e, (pressedAt2010.OnMouseWheel 100).ellipses.selectedObject = some e ∧
      e.rotation = 13981013 / 4194304 ∧
      e.rotation ≠ (ColorEllipse.new ⟨20, 10⟩ ColorF.Yellow).rotation + (100 : ℚ) / 120 * 4 := by
  refine ⟨by decide!, rfl, ?_⟩
  refine ⟨{ ellipse := { point := ⟨20, 10⟩, radiusX := 1, radiusY := 1 }
            color := ColorF.Yellow, rotation := 13981013 / 4194304 }, by decide!, rfl, by decide!⟩

/-- C9 (amended): with a shape selected, `OnMouseWheel(delta)` replaces the rotation `r` of
that shape by `fl (r + fl (fl (fl delta / 120) * 4))`, every operation rounded to binary32
(`fl = round32`), and changes nothing else in the window (centre, radii and colour of the
shape, every other shape, the selection, the colour cursor and the mode stay); whenever
the four operations are exact the new rotation is `r + delta / 120 * 4`; with no shape
selected the whole window state stays as it is. -/
theorem OnMouseWheel_rotation (w : DrawingWindow) (delta : Int) :
    (w.ellipses.pShape = none → w.OnMouseWheel delta = w) ∧
    (∀ i e, w.ellipses.pShape = some i → w.ellipses.shapes[i]? = some e →
      w.OnMouseWheel delta =
        w.withShapes (w.ellipses.shapes.set i
          { ellipse := e.ellipse
            color := e.color
            rotation :=
              round32 (e.rotation + round32 (round32 (round32 (delta : ℚ) / 120) * 4)) })) ∧
    (∀ r : ℚ, round32 (delta : ℚ) = delta → round32 ((delta : ℚ) / 120) = delta / 120 →
      round32 ((delta : ℚ) / 120 * 4) = delta / 120 * 4 →
      round32 (r + (delta : ℚ) / 120 * 4) = r + delta / 120 * 4 →
      round32 (r + round32 (round32 (round32 (delta : ℚ) / 120) * 4)) =
        r + delta / 120 * 4) := by
  refine ⟨?_, ?_, ?_⟩
  · intro hnone
    unfold DrawingWindow.OnMouseWheel
    simp only [ShapeList.addRotation]
    rw [updateSelected_none _ w.ellipses hnone]
  · intro i e hsel hobj
    unfold DrawingWindow.OnMouseWheel
    simp only [ShapeList.addRotation]
    rw [updateSelected_some _ w.ellipses i e hsel hobj]
    rfl
  · intro r h1 h2 h3 h4
    rw [h1, h2, h3, h4]

/-- Witness of `OnMouseWheel_rotation`: one wheel click (`delta = 120`) on the freshly
inserted, selected shape of `pressedAt2010` turns it from 0 to 4 degrees; on a new window
it does nothing. -/
theorem OnMouseWheel_rotation_witness :
    DrawingWindow.new.OnMouseWheel 120 = DrawingWindow.new ∧
    pressedAt2010.OnMouseWheel 120 =
      pressedAt2010.withShapes
        [{ ellipse := { point := ⟨20, 10⟩, radiusX := 1, radiusY := 1 }
           color := ColorF.Yellow, rotation := 4 }] := by
  refine ⟨(OnMouseWheel_rotation DrawingWindow.new 120).1 rfl, ?_⟩
  have h := (OnMouseWheel_rotation pressedAt2010 120).2.1 0
    (ColorEllipse.new ⟨20, 10⟩ ColorF.Yellow) (by rw [pressedAt2010_eq])
    (by rw [pressedAt2010_eq]; rfl)
  rw [h]
  decide!

end EllipseDrawing
